import Mathlib

/-!
Verification of `deploy_vps.py` (AgenciaSeniors/GlobalSolutionsApp).

The script is a single linear program:
  * connect to a fixed host (line 13), which may raise a connection error;
  * STEP 1 (lines 16-26): exec the build command, read its combined output
    stream in chunks of up to 4096 bytes, decoding each chunk as UTF-8 with
    replacement and writing+flushing it to stdout, until an empty read; then
    retrieve the exit status and print `[BUILD EXIT CODE: N]`;
  * lines 28-34: if and only if the exit status is 0, exec the restart
    command, print its whole decoded output and `[PM2 EXIT: N]`; otherwise
    print `[BUILD FAILED — skipping restart]`;
  * STEP 3 (lines 36-38): unconditionally exec the status command and print
    its whole decoded output (its exit status is never retrieved);
  * line 40-41: `client.close()` and print `Done.`.

We embed the script as a function from a simulated remote environment (the
outcome of `connect` plus, for each command, the chunk sequence its channel
delivers, whether the stream closes normally or a fatal error occurs
mid-read, and the exit status the channel reports) to the trace of
observable events the script performs, in order.  A fatal error is
unhandled in the script, so the trace simply stops at the `raiseErr` event,
modelling the unhandled exception propagating to the top of the process.
-/

/-- Fatal error kinds that `paramiko` can raise in this script: a connect
failure (unreachable / bad credential / handshake timeout), a per-command
timeout while reading, or the transport dropping mid-read. -/
inductive Fatal where
  | connectionError
  | commandTimeout
  | connectionLost
deriving DecidableEq, Repr

/-- Behaviour of one remote command's channel in the simulated environment:
the successive (byte) chunks its stream delivers, then either a normal
close of the stream (`outcome = none`) or a fatal error raised by the next
read (`outcome = some e`), and the exit status `recv_exit_status` would
report once the stream has closed.  A real channel only delivers nonempty
chunks before end-of-stream (see `wfChunks`). -/
structure CmdBehavior where
  chunks : List (List Nat)
  outcome : Option Fatal
  exitStatus : Nat
deriving DecidableEq, Repr

/-- A real channel delivers only nonempty chunks of at most the requested
4096 bytes before end-of-stream; an empty read means the stream closed. -/
def wfChunks (cs : List (List Nat)) : Bool :=
  cs.all (fun c => decide (c.length ≠ 0) && decide (c.length ≤ 4096))

/-- The simulated remote environment of one run of the script: the outcome
of `client.connect` (line 13) and the channel behaviour of each of the
three commands the script can exec. -/
structure Env where
  connect : Option Fatal
  build : CmdBehavior
  restart : CmdBehavior
  statusQ : CmdBehavior
deriving DecidableEq, Repr

/-- Observable events of the script, in program order.  `print s` is a
Python `print(s)` (a trailing newline is implicit); `exec c` is
`client.exec_command(c, ...)`; `readChunk bs` is a `read` call on a
command's output stream returning exactly the bytes `bs`; `write t` is
`sys.stdout.write` of decoded text `t` (a list of Unicode code points);
`flush` is `sys.stdout.flush()`; `printText t` is `print` of decoded
remote output; `recvExit n` is `recv_exit_status()` returning `n`;
`close` is `client.close()`; `raiseErr e` is an unhandled exception,
after which the script performs nothing further. -/
inductive Event where
  | print (s : String)
  | exec (cmd : String)
  | readChunk (bytes : List Nat)
  | write (text : List Nat)
  | flush
  | printText (text : List Nat)
  | recvExit (code : Nat)
  | close
  | raiseErr (e : Fatal)
deriving DecidableEq, Repr

/-- The command string of line 17. -/
def buildCmdStr : String := "cd /var/www/gst && npm run build 2>&1"

/-- The command string of line 30. -/
def restartCmdStr : String := "pm2 restart gst 2>&1"

/-- The command string of line 37. -/
def statusCmdStr : String := "pm2 status 2>&1"

/-- Lower bound accepted for the byte following a multi-byte UTF-8 lead
byte `b` (the constrained second byte of the E0, ED, F0, F4 sequences). -/
def cLo (b : Nat) : Nat :=
  if b = 0xE0 then 0xA0 else if b = 0xF0 then 0x90 else 0x80

/-- Upper bound accepted for the byte following a multi-byte UTF-8 lead
byte `b`. -/
def cHi (b : Nat) : Nat :=
  if b = 0xED then 0x9F else if b = 0xF4 then 0x8F else 0xBF

/-- Decoder state while inside a multi-byte UTF-8 sequence: `need` more
continuation bytes are required, `acc` holds the code-point bits read so
far, and the next byte must lie in `[lo, hi]` (the first continuation byte
of an E0/ED/F0/F4 sequence has a restricted range; later ones always allow
`[0x80, 0xBF]`). -/
structure PendSt where
  need : Nat
  acc : Nat
  lo : Nat
  hi : Nat
deriving DecidableEq, Repr

/-- One byte fed to the UTF-8 replace-decoder in the initial state (no
sequence pending): an ASCII byte is emitted as itself; a well-formed lead
byte opens a pending sequence; any other byte (stray continuation,
overlong lead C0/C1, or F5-FF) is ill-formed and emitted as U+FFFD. -/
def utf8StepInit (b : Nat) : Option PendSt × List Nat :=
  if b < 0x80 then (none, [b])
  else if b < 0xC2 then (none, [0xFFFD])
  else if b ≤ 0xDF then (some ⟨1, b - 0xC0, 0x80, 0xBF⟩, [])
  else if b ≤ 0xEF then (some ⟨2, b - 0xE0, cLo b, cHi b⟩, [])
  else if b ≤ 0xF4 then (some ⟨3, b - 0xF0, cLo b, cHi b⟩, [])
  else (none, [0xFFFD])

/-- One byte fed to the UTF-8 replace-decoder.  Inside a pending sequence,
an in-range byte extends (or, when it was the last one required,
completes) the sequence; an out-of-range byte ends the maximal subpart of
the ill-formed sequence, which is replaced by one U+FFFD, and the byte is
then reprocessed in the initial state — exactly CPython's
`errors='replace'` behaviour. -/
def utf8Step : Option PendSt → Nat → Option PendSt × List Nat
  | none, b => utf8StepInit b
  | some p, b =>
    if p.lo ≤ b ∧ b ≤ p.hi then
      match p.need with
      | 0 => (none, [0xFFFD])
      | 1 => (none, [p.acc * 64 + (b - 0x80)])
      | n + 2 => (some ⟨n + 1, p.acc * 64 + (b - 0x80), 0x80, 0xBF⟩, [])
    else
      ((utf8StepInit b).1, 0xFFFD :: (utf8StepInit b).2)

/-- Run the UTF-8 replace-decoder from state `s` over a byte list,
returning the final state and the emitted code points. -/
def utf8Run : Option PendSt → List Nat → Option PendSt × List Nat
  | s, [] => (s, [])
  | s, b :: bs =>
    ((utf8Run (utf8Step s b).1 bs).1, (utf8Step s b).2 ++ (utf8Run (utf8Step s b).1 bs).2)

/-- End-of-input flush of the UTF-8 replace-decoder: a still-pending
(truncated) sequence is a maximal subpart and is replaced by one U+FFFD. -/
def utf8Flush : Option PendSt → List Nat
  | none => []
  | some _ => [0xFFFD]

/-- `bytes.decode('utf-8', errors='replace')` (lines 22, 31, 38): decode a
byte list to the list of Unicode code points, replacing each maximal
subpart of an ill-formed subsequence with U+FFFD, exactly as CPython's
UTF-8 codec does with `errors='replace'`. -/
def utf8DecodeRep (bs : List Nat) : List Nat :=
  (utf8Run none bs).2 ++ utf8Flush (utf8Run none bs).1

/-- Whether byte `b` is acceptable to the decoder in state `s` without any
replacement. -/
def okByte : Option PendSt → Nat → Bool
  | none, b => decide (b < 0x80) || (decide (0xC2 ≤ b) && decide (b ≤ 0xF4))
  | some p, b => decide (p.lo ≤ b) && decide (b ≤ p.hi)

/-- Whether the byte list, fed to the decoder from state `s`, is accepted
without replacement and ends with no sequence pending. -/
def validFrom : Option PendSt → List Nat → Bool
  | s, [] => decide (s = none)
  | s, b :: bs => okByte s b && validFrom (utf8Step s b).1 bs

/-- A byte list that is entirely well-formed UTF-8 (a concatenation of
complete, well-formed character encodings). -/
def validChunk (bs : List Nat) : Bool :=
  validFrom none bs

/-- Events of one iteration of the read loop of lines 18-23 for a chunk
`c`: the `stdout.read(4096)` returning `c`, the `sys.stdout.write` of the
decoded chunk, and the `sys.stdout.flush()`. -/
def chunkEvents (c : List Nat) : List Event :=
  [Event.readChunk c, Event.write (utf8DecodeRep c), Event.flush]

/-- The events of the read loop of lines 18-23, driven by the channel's
chunk list.  An empty chunk breaks the loop (line 20-21); once the
channel's chunks are exhausted, the next read either returns `b''`
(stream closed, loop breaks) or raises the channel's fatal error. -/
def readLoopEvents (o : Option Fatal) : List (List Nat) → List Event
  | [] =>
    match o with
    | none => [Event.readChunk []]
    | some e => [Event.raiseErr e]
  | c :: cs =>
    if c.length = 0 then
      [Event.readChunk []]
    else
      Event.readChunk c :: Event.write (utf8DecodeRep c) :: Event.flush :: readLoopEvents o cs

/-- Whether the read loop of lines 18-23 ends in an unhandled fatal error
(`some e`) or breaks out normally (`none`).  A fatal error scheduled after
the chunks is only reached if no empty chunk broke the loop first. -/
def readLoopAborts (o : Option Fatal) : List (List Nat) → Option Fatal
  | [] => o
  | c :: cs => if c.length = 0 then none else readLoopAborts o cs

/-- Lines 36-41: the unconditional STEP 3 (`pm2 status`), whose whole
output is read at once (line 38) and whose exit status is never retrieved,
followed by `client.close()` and the final print. -/
def step3Events (env : Env) : List Event :=
  Event.print "\n=== STEP 3: pm2 status ===" ::
  Event.exec statusCmdStr ::
  match env.statusQ.outcome with
  | some e => [Event.raiseErr e]
  | none =>
    Event.readChunk env.statusQ.chunks.flatten ::
    Event.printText (utf8DecodeRep env.statusQ.chunks.flatten) ::
    Event.close ::
    [Event.print "Done."]

/-- Lines 28-38: the exit-code gate.  If the build exit status is 0, STEP 2
(`pm2 restart gst`) runs: exec, whole-stream read (line 31), decoded
output printed, exit status retrieved and printed; otherwise the skip line
is printed.  Either way STEP 3 follows. -/
def gateEvents (env : Env) : List Event :=
  if env.build.exitStatus = 0 then
    Event.print "\n=== STEP 2: pm2 restart gst ===" ::
    Event.exec restartCmdStr ::
    match env.restart.outcome with
    | some e => [Event.raiseErr e]
    | none =>
      Event.readChunk env.restart.chunks.flatten ::
      Event.printText (utf8DecodeRep env.restart.chunks.flatten) ::
      Event.recvExit env.restart.exitStatus ::
      Event.print ("[PM2 EXIT: " ++ toString env.restart.exitStatus ++ "]") ::
      step3Events env
  else
    Event.print "[BUILD FAILED — skipping restart]" :: step3Events env

/-- The full event trace of one run of `deploy_vps.py` in environment
`env`.  An unhandled fatal error ends the trace at its `raiseErr` event. -/
def deployTrace (env : Env) : List Event :=
  Event.print "Connecting to VPS..." ::
  match env.connect with
  | some e => [Event.raiseErr e]
  | none =>
    Event.print "Connected.\n" ::
    Event.print "=== STEP 1: npm run build ===" ::
    Event.exec buildCmdStr ::
    readLoopEvents env.build.outcome env.build.chunks ++
    match readLoopAborts env.build.outcome env.build.chunks with
    | some _ => []
    | none =>
      Event.recvExit env.build.exitStatus ::
      Event.print ("\n[BUILD EXIT CODE: " ++ toString env.build.exitStatus ++ "]") ::
      gateEvents env

/-- Number of times command `c` is sent with `exec_command` in trace `t`. -/
def countExec (t : List Event) (c : String) : Nat :=
  (t.filter (fun e => e = Event.exec c)).length

/-- Number of `client.close()` calls in trace `t`. -/
def countClose (t : List Event) : Nat :=
  (t.filter (fun e => e = Event.close)).length

/-- Whether event `e` is an unhandled fatal error. -/
def isRaise : Event → Bool
  | Event.raiseErr _ => true
  | _ => false

/-- Whether trace `t` contains an unhandled fatal error. -/
def hasFatal (t : List Event) : Bool :=
  t.any isRaise

/-- The concatenation, in order, of all decoded texts written to the
output sink with `sys.stdout.write` in trace `t`. -/
def writtenText (t : List Event) : List Nat :=
  (t.filterMap (fun e =>
    match e with
    | Event.write s => some s
    | _ => none)).flatten

/-- Whether event `e` is a stream-I/O event of the chunk loop: a read, a
write of decoded text, or a flush. -/
def isStreamEv : Event → Bool
  | Event.readChunk _ => true
  | Event.write _ => true
  | Event.flush => true
  | _ => false

/-- Whether event `e` is a `recv_exit_status` call. -/
def isRecv : Event → Bool
  | Event.recvExit _ => true
  | _ => false

/-- Whether event `e` is a read on a command's output stream. -/
def isRead : Event → Bool
  | Event.readChunk _ => true
  | _ => false

/-- Whether event `e` is an `exec_command` call. -/
def isExec : Event → Bool
  | Event.exec _ => true
  | _ => false

/-- The stream-I/O events of `t`, in order. -/
def streamEvents (t : List Event) : List Event :=
  t.filter isStreamEv

/-- The prefix of `t` strictly before the first `recv_exit_status` call. -/
def untilRecv (t : List Event) : List Event :=
  t.takeWhile (fun e => !(isRecv e))

/-- The read and `recv_exit_status` events of `t`, in order. -/
def drainEvents (t : List Event) : List Event :=
  t.filter (fun e => isRead e || isRecv e)

/-- The commands passed to `exec_command` in trace `t`, in order. -/
def execTrace (t : List Event) : List String :=
  t.filterMap (fun e =>
    match e with
    | Event.exec c => some c
    | _ => none)

/-- The events of `t` strictly after the first `client.close()` call
(all of `t` dropped when there is no such call). -/
def afterClose (t : List Event) : List Event :=
  (t.dropWhile (fun e => !(e = Event.close))).tail

/-- The process exit code of one run: CPython exits with a nonzero status
(1) when an exception propagates unhandled to the top of the program, and
with 0 when the script runs to its end (the script never calls
`sys.exit`). -/
def procExit (env : Env) : Nat :=
  if hasFatal (deployTrace env) then 1 else 0

/-- The final event of the read loop of lines 18-23 once the channel's
chunks are exhausted: the closing empty read (stream closed), or the fatal
error raised by the next read. -/
def loopTail : Option Fatal → List Event
  | none => [Event.readChunk []]
  | some e => [Event.raiseErr e]

/-- Environment refuting claim C3: the build stream delivers the two-byte
UTF-8 encoding of U+00E9 split across a chunk boundary. -/
def envC3cx : Env :=
  ⟨none, ⟨[[0xC3], [0xA9]], none, 0⟩, ⟨[], none, 0⟩, ⟨[], none, 0⟩⟩

/-- Environment witnessing the amended claim C3: every chunk is valid
UTF-8. -/
def envC3w : Env :=
  ⟨none, ⟨[[0x61], [0xC3, 0xA9]], none, 1⟩, ⟨[], none, 0⟩, ⟨[], none, 0⟩⟩


/-- Environment witnessing claim C1: connect succeeds and the build exits
with status 0. -/
def envC1w : Env :=
  ⟨none, ⟨[[0x61]], none, 0⟩, ⟨[[0x6F]], none, 0⟩, ⟨[[0x73]], none, 0⟩⟩


/-- Environment refuting claim C2: `connect` raises, so line 40
(`client.close()`) is never reached. -/
def envC2cx : Env :=
  ⟨some Fatal.connectionError, ⟨[], none, 0⟩, ⟨[], none, 0⟩, ⟨[], none, 0⟩⟩


/-- Environment witnessing claim C4: a fatal-error-free run with build
exit status 0. -/
def envC4w : Env :=
  ⟨none, ⟨[[0x62]], none, 0⟩, ⟨[], none, 0⟩, ⟨[], none, 5⟩⟩


/-- Environment witnessing claim C5: two chunks, the second of which is
followed by a command timeout, so partial output is already streamed. -/
def envC5w : Env :=
  ⟨none, ⟨[[0x61], [0x62]], some Fatal.commandTimeout, 0⟩, ⟨[], none, 0⟩, ⟨[], none, 0⟩⟩


/-- Environment witnessing claim C6: a run that reaches the end of the
script with a nonzero build exit status. -/
def envC6w : Env :=
  ⟨none, ⟨[[0x61]], none, 7⟩, ⟨[], some Fatal.connectionLost, 0⟩, ⟨[], none, 3⟩⟩

/-- Environment witnessing claim C7: build exits 0 and the restart command
reports exit status 255. -/
def envC7w : Env :=
  ⟨none, ⟨[[0x61]], none, 0⟩, ⟨[[0x62]], none, 255⟩, ⟨[], none, 0⟩⟩


/-- Environment witnessing claim C8: a fully successful run with build
exit status 0. -/
def envC8w : Env :=
  ⟨none, ⟨[[0x61], [0x62]], none, 0⟩, ⟨[[0x63]], none, 2⟩, ⟨[[0x64]], none, 0⟩⟩


/-- Environment witnessing claim C9: the build command times out after one
chunk. -/
def envC9w : Env :=
  ⟨none, ⟨[[0x61]], some Fatal.commandTimeout, 0⟩, ⟨[], none, 0⟩, ⟨[], none, 0⟩⟩


/-- Environment refuting claim C5 as stated for every command: the restart
command's channel delivers two chunks, which line 31 reads with a single
whole-stream `read()`. -/
def envC5cx : Env :=
  ⟨none, ⟨[], none, 0⟩, ⟨[[0x6F], [0x70]], none, 0⟩, ⟨[], none, 0⟩⟩

theorem build_ne_restart : buildCmdStr ≠ restartCmdStr := by decide

theorem build_ne_status : buildCmdStr ≠ statusCmdStr := by decide

theorem restart_ne_status : restartCmdStr ≠ statusCmdStr := by decide

theorem writtenText_nil : writtenText [] = [] := rfl

theorem writtenText_cons (e : Event) (t : List Event) :
    writtenText (e :: t) =
      (match e with | Event.write s => s | _ => []) ++ writtenText t := by
  cases e <;> simp [writtenText, List.filterMap_cons]

theorem writtenText_append (a b : List Event) :
    writtenText (a ++ b) = writtenText a ++ writtenText b := by
  simp [writtenText, List.filterMap_append]

theorem utf8Run_append (a : List Nat) : ∀ (s : Option PendSt) (b : List Nat),
    utf8Run s (a ++ b) =
      ((utf8Run (utf8Run s a).1 b).1, (utf8Run s a).2 ++ (utf8Run (utf8Run s a).1 b).2) := by
  induction a with
  | nil => intro s b; simp [utf8Run]
  | cons x xs ih => intro s b; simp [utf8Run, ih]

theorem validFrom_run_none : ∀ (bs : List Nat) (s : Option PendSt),
    validFrom s bs = true → (utf8Run s bs).1 = none := by
  intro bs
  induction bs with
  | nil => intro s h; simpa [validFrom, utf8Run] using h
  | cons b bs ih =>
    intro s h
    simp only [validFrom, Bool.and_eq_true] at h
    simpa [utf8Run] using ih _ h.2

theorem utf8_decode_append (a t : List Nat) (h : validChunk a = true) :
    utf8DecodeRep (a ++ t) = utf8DecodeRep a ++ utf8DecodeRep t := by
  have h1 : (utf8Run none a).1 = none := validFrom_run_none a none h
  simp [utf8DecodeRep, utf8Run_append, h1, utf8Flush]

theorem utf8_decode_flatten (cs : List (List Nat)) (h : cs.all validChunk = true) :
    utf8DecodeRep cs.flatten = (cs.map utf8DecodeRep).flatten := by
  induction cs with
  | nil => simp [utf8DecodeRep, utf8Run, utf8Flush]
  | cons c cs ih =>
    simp only [List.all_cons, Bool.and_eq_true] at h
    simp [utf8_decode_append c cs.flatten h.1, ih h.2]

theorem takeWhile_append_of_all {α : Type} {p : α → Bool} :
    ∀ (a b : List α), (∀ e ∈ a, p e = true) →
      (a ++ b).takeWhile p = a ++ b.takeWhile p := by
  intro a
  induction a with
  | nil => intro b _; simp
  | cons x xs ih =>
    intro b h
    have hx : p x = true := h x (List.mem_cons_self x xs)
    simp [List.takeWhile_cons, hx, ih b (fun e he => h e (List.mem_cons_of_mem x he))]

theorem dropWhile_append_of_all {α : Type} {p : α → Bool} :
    ∀ (a b : List α), (∀ e ∈ a, p e = true) →
      (a ++ b).dropWhile p = b.dropWhile p := by
  intro a
  induction a with
  | nil => intro b _; simp
  | cons x xs ih =>
    intro b h
    have hx : p x = true := h x (List.mem_cons_self x xs)
    simp [List.dropWhile_cons, hx, ih b (fun e he => h e (List.mem_cons_of_mem x he))]

theorem readLoopAborts_wf (o : Option Fatal) :
    ∀ cs, wfChunks cs = true → readLoopAborts o cs = o := by
  intro cs
  induction cs with
  | nil => intro _; rfl
  | cons c cs ih =>
    intro h
    simp only [wfChunks, List.all_cons, Bool.and_eq_true, decide_eq_true_eq] at h
    simp only [readLoopAborts, if_neg h.1.1]
    exact ih (by simpa [wfChunks, List.all_eq_true] using h.2)

theorem readLoopEvents_eq (o : Option Fatal) :
    ∀ cs, wfChunks cs = true →
      readLoopEvents o cs = (cs.map chunkEvents).flatten ++ loopTail o := by
  intro cs
  induction cs with
  | nil => intro _; cases o <;> simp [readLoopEvents, loopTail]
  | cons c cs ih =>
    intro h
    simp only [wfChunks, List.all_cons, Bool.and_eq_true, decide_eq_true_eq] at h
    simp only [readLoopEvents, if_neg h.1.1, List.map_cons, List.flatten_cons, chunkEvents]
    simp [ih (by simpa [wfChunks, List.all_eq_true] using h.2)]

theorem mem_chunkFlat (cs : List (List Nat)) (e : Event)
    (h : e ∈ (cs.map chunkEvents).flatten) : isStreamEv e = true := by
  simp only [List.mem_flatten, List.mem_map] at h
  obtain ⟨l, ⟨c, _, rfl⟩, he⟩ := h
  simp only [chunkEvents, List.mem_cons, List.mem_singleton] at he
  rcases he with rfl | rfl | rfl | h0 <;> first | rfl | cases h0

theorem chunkFlat_filter_nil {p : Event → Bool} (cs : List (List Nat))
    (hp : ∀ e, isStreamEv e = true → p e = false) :
    ((cs.map chunkEvents).flatten).filter p = [] := by
  refine List.filter_eq_nil_iff.2 (fun a ha => ?_)
  simp [hp a (mem_chunkFlat cs a ha)]

theorem chunkFlat_writtenText (cs : List (List Nat)) :
    writtenText ((cs.map chunkEvents).flatten) = (cs.map utf8DecodeRep).flatten := by
  induction cs with
  | nil => rfl
  | cons c cs ih =>
    simp [chunkEvents, writtenText_append, writtenText_cons, ih]

theorem chunkFlat_drain (cs : List (List Nat)) :
    drainEvents ((cs.map chunkEvents).flatten) = cs.map Event.readChunk := by
  induction cs with
  | nil => rfl
  | cons c cs ih =>
    simp [chunkEvents, drainEvents, List.filter_append, isRead, isRecv] at ih ⊢
    simpa [drainEvents] using ih

theorem writtenText_step3 (env : Env) : writtenText (step3Events env) = [] := by
  unfold step3Events
  cases env.statusQ.outcome <;> simp [writtenText_cons, writtenText_nil]

theorem writtenText_gate (env : Env) : writtenText (gateEvents env) = [] := by
  unfold gateEvents
  by_cases h : env.build.exitStatus = 0
  · simp only [if_pos h]
    cases env.restart.outcome <;> simp [writtenText_cons, writtenText_nil, writtenText_step3]
  · simp [if_neg h, writtenText_cons, writtenText_step3]

theorem writtenText_loopTail (o : Option Fatal) : writtenText (loopTail o) = [] := by
  cases o <;> rfl

/-- Claim C3 counterexample: with the two bytes of the UTF-8 encoding of
U+00E9 delivered in two separate chunks, the text written to the output
sink is two replacement characters, while decoding the concatenated raw
stream yields the single code point U+00E9 — per-chunk decoding is not a
homomorphism for every chunk boundary placement. -/
theorem chunk_decode_split_cx :
    writtenText (deployTrace envC3cx) ≠ utf8DecodeRep envC3cx.build.chunks.flatten := by
  decide

/-- Claim C3 (amended): for every chunk sequence delivered by the build
command's output stream in which each chunk is wholly valid UTF-8 (no
multi-byte character encoding spans a chunk boundary), the concatenation
of the decoded texts written to the output sink equals the UTF-8 decoding
with replacement of the concatenation of all raw chunks, in order. -/
theorem chunk_decode_concat_of_valid (env : Env)
    (hc : env.connect = none)
    (hw : wfChunks env.build.chunks = true)
    (hv : env.build.chunks.all validChunk = true) :
    writtenText (deployTrace env) = utf8DecodeRep env.build.chunks.flatten := by
  obtain ⟨cn, ⟨bc, bo, bst⟩, rb, sb⟩ := env
  simp only at hc hw hv
  subst hc
  simp only [deployTrace]
  rw [readLoopEvents_eq bo bc hw]
  cases hab : readLoopAborts bo bc <;>
    simp [writtenText_cons, writtenText_append, chunkFlat_writtenText,
      writtenText_loopTail, writtenText_gate, utf8_decode_flatten bc hv]

/-- Witness for the amended claim C3 at a concrete environment. -/
theorem chunk_decode_concat_of_valid_witness :
    envC3w.connect = none ∧ wfChunks envC3w.build.chunks = true ∧
      envC3w.build.chunks.all validChunk = true ∧
      writtenText (deployTrace envC3w) = utf8DecodeRep envC3w.build.chunks.flatten :=
  ⟨by decide, by decide, by decide,
    chunk_decode_concat_of_valid envC3w (by decide) (by decide) (by decide)⟩

theorem countExec_nil (c : String) : countExec [] c = 0 := rfl

theorem countClose_nil : countClose [] = 0 := rfl

theorem countExec_cons (e : Event) (t : List Event) (c : String) :
    countExec (e :: t) c = (if e = Event.exec c then 1 else 0) + countExec t c := by
  simp only [countExec, List.filter_cons]
  by_cases h : e = Event.exec c <;> simp [h, Nat.add_comm]

theorem countExec_append (a b : List Event) (c : String) :
    countExec (a ++ b) c = countExec a c + countExec b c := by
  simp [countExec, List.filter_append]

theorem countClose_cons (e : Event) (t : List Event) :
    countClose (e :: t) = (if e = Event.close then 1 else 0) + countClose t := by
  simp only [countClose, List.filter_cons]
  by_cases h : e = Event.close <;> simp [h, Nat.add_comm]

theorem countClose_append (a b : List Event) :
    countClose (a ++ b) = countClose a + countClose b := by
  simp [countClose, List.filter_append]

theorem chunkFlat_countExec (cs : List (List Nat)) (c : String) :
    countExec ((cs.map chunkEvents).flatten) c = 0 := by
  have h : ((cs.map chunkEvents).flatten).filter (fun e => e = Event.exec c) = [] :=
    chunkFlat_filter_nil cs (fun e he => by cases e <;> simp_all [isStreamEv])
  simp [countExec, h]

theorem chunkFlat_countClose (cs : List (List Nat)) :
    countClose ((cs.map chunkEvents).flatten) = 0 := by
  have h : ((cs.map chunkEvents).flatten).filter (fun e => e = Event.close) = [] :=
    chunkFlat_filter_nil cs (fun e he => by cases e <;> simp_all [isStreamEv])
  simp [countClose, h]

theorem loopTail_countExec (o : Option Fatal) (c : String) :
    countExec (loopTail o) c = 0 := by
  cases o <;> simp [loopTail, countExec]

theorem loopTail_countClose (o : Option Fatal) :
    countClose (loopTail o) = 0 := by
  cases o <;> simp [loopTail, countClose]

theorem step3_countExec (env : Env) (c : String) (h : statusCmdStr ≠ c) :
    countExec (step3Events env) c = 0 := by
  unfold step3Events
  cases env.statusQ.outcome <;> simp [countExec_cons, countExec, h]

theorem gate_countExec_restart (env : Env) :
    countExec (gateEvents env) restartCmdStr =
      if env.build.exitStatus = 0 then 1 else 0 := by
  unfold gateEvents
  by_cases h : env.build.exitStatus = 0
  · simp only [if_pos h]
    cases env.restart.outcome <;>
      simp [countExec_cons, countExec_nil,
        step3_countExec env restartCmdStr (Ne.symm restart_ne_status)]
  · simp [if_neg h, countExec_cons,
      step3_countExec env restartCmdStr (Ne.symm restart_ne_status)]

/-- Claim C1: the restart command (`pm2 restart gst`) is issued exactly
once if and only if the build command's exit status equals 0; for every
nonzero build exit status the restart command is never issued and the
line `[BUILD FAILED — skipping restart]` is printed instead. -/
theorem restart_iff_build_exit_zero (env : Env)
    (hc : env.connect = none) (hb : env.build.outcome = none)
    (hw : wfChunks env.build.chunks = true) :
    (countExec (deployTrace env) restartCmdStr = 1 ↔ env.build.exitStatus = 0) ∧
    (env.build.exitStatus ≠ 0 →
      countExec (deployTrace env) restartCmdStr = 0 ∧
      Event.print "[BUILD FAILED — skipping restart]" ∈ deployTrace env) := by
  obtain ⟨cn, ⟨bc, bo, bst⟩, rb, sb⟩ := env
  simp only at hc hb hw ⊢
  subst hc; subst hb
  simp only [deployTrace, readLoopEvents_eq none bc hw, readLoopAborts_wf none bc hw]
  constructor
  · simp [countExec_cons, countExec_append, chunkFlat_countExec, loopTail_countExec,
      gate_countExec_restart, build_ne_restart]
  · intro h
    constructor
    · simp [countExec_cons, countExec_append, chunkFlat_countExec, loopTail_countExec,
        gate_countExec_restart, build_ne_restart, h]
    · simp [gateEvents, if_neg h, List.mem_append]

/-- Witness for claim C1 at a concrete environment (build exits 0, so the
restart command is issued exactly once). -/
theorem restart_iff_build_exit_zero_witness :
    envC1w.connect = none ∧ envC1w.build.outcome = none ∧
      wfChunks envC1w.build.chunks = true ∧
      ((countExec (deployTrace envC1w) restartCmdStr = 1 ↔
          envC1w.build.exitStatus = 0) ∧
        (envC1w.build.exitStatus ≠ 0 →
          countExec (deployTrace envC1w) restartCmdStr = 0 ∧
          Event.print "[BUILD FAILED — skipping restart]" ∈ deployTrace envC1w)) :=
  ⟨rfl, rfl, by decide, restart_iff_build_exit_zero envC1w rfl rfl (by decide)⟩


theorem hasFatal_nil : hasFatal [] = false := rfl

theorem hasFatal_cons (e : Event) (t : List Event) :
    hasFatal (e :: t) = (isRaise e || hasFatal t) := by
  simp [hasFatal]

theorem hasFatal_append (a b : List Event) :
    hasFatal (a ++ b) = (hasFatal a || hasFatal b) := by
  simp [hasFatal, List.any_append]

theorem readLoop_countExec (o : Option Fatal) (c : String) :
    ∀ cs, countExec (readLoopEvents o cs) c = 0 := by
  intro cs
  induction cs with
  | nil => cases o <;> simp [readLoopEvents, countExec_cons, countExec_nil]
  | cons x xs ih =>
    by_cases hl : x.length = 0 <;>
      simp [readLoopEvents, hl, countExec_cons, countExec_nil, ih]

theorem readLoop_countClose (o : Option Fatal) :
    ∀ cs, countClose (readLoopEvents o cs) = 0 := by
  intro cs
  induction cs with
  | nil => cases o <;> simp [readLoopEvents, countClose_cons, countClose_nil]
  | cons x xs ih =>
    by_cases hl : x.length = 0 <;>
      simp [readLoopEvents, hl, countClose_cons, countClose_nil, ih]

theorem readLoop_hasFatal (o : Option Fatal) :
    ∀ cs, hasFatal (readLoopEvents o cs) = (readLoopAborts o cs).isSome := by
  intro cs
  induction cs with
  | nil =>
    cases o <;> simp [readLoopEvents, readLoopAborts, hasFatal_cons, hasFatal_nil, isRaise]
  | cons x xs ih =>
    by_cases hl : x.length = 0 <;>
      simp [readLoopEvents, readLoopAborts, hl, hasFatal_cons, hasFatal_nil, isRaise, ih]

theorem step3_countClose (env : Env) :
    countClose (step3Events env) =
      if hasFatal (step3Events env) then 0 else 1 := by
  obtain ⟨cn, bb, rb, ⟨sc, so, ss⟩⟩ := env
  cases so <;>
    simp [step3Events, countClose_cons, countClose_nil, hasFatal_cons, hasFatal_nil, isRaise]

theorem step3_hasFatal (env : Env) :
    hasFatal (step3Events env) = env.statusQ.outcome.isSome := by
  obtain ⟨cn, bb, rb, ⟨sc, so, ss⟩⟩ := env
  cases so <;>
    simp [step3Events, hasFatal_cons, hasFatal_nil, isRaise]

theorem gate_countClose (env : Env) :
    countClose (gateEvents env) =
      if hasFatal (gateEvents env) then 0 else 1 := by
  obtain ⟨cn, ⟨bc, bo, bst⟩, ⟨rc, ro, rs⟩, ⟨sc, so, ss⟩⟩ := env
  by_cases h : bst = 0
  · cases ro <;> cases so <;>
      simp [gateEvents, h, step3Events, countClose_cons, countClose_nil,
        hasFatal_cons, hasFatal_nil, isRaise]
  · cases so <;>
      simp [gateEvents, h, step3Events, countClose_cons, countClose_nil,
        hasFatal_cons, hasFatal_nil, isRaise]

/-- Claim C2 counterexample: in the execution where `connect()` fails, the
script never reaches line 40, so `close()` is invoked zero times — not
once — refuting the guarantee that the transport is released on every
exit path. -/
theorem close_skipped_on_connect_failure :
    envC2cx.connect = some Fatal.connectionError ∧
      countClose (deployTrace envC2cx) = 0 := by
  decide

/-- Claim C2 (amended): `close()` is invoked exactly once in every
execution that runs to the end of the script without a fatal error; in
every execution in which `connect()` or a `run()` raises a fatal error,
the unhandled exception terminates the program and `close()` is never
invoked (so there is no double-release, but also no release on error
paths). -/
theorem close_once_iff_no_fatal (env : Env) :
    countClose (deployTrace env) =
      if hasFatal (deployTrace env) then 0 else 1 := by
  obtain ⟨cn, ⟨bc, bo, bst⟩, rb, sb⟩ := env
  cases cn with
  | some e =>
    simp [deployTrace, countClose_cons, countClose_nil, hasFatal_cons, hasFatal_nil, isRaise]
  | none =>
    cases hab : readLoopAborts bo bc with
    | some e =>
      simp [deployTrace, hab, countClose_cons, countClose_nil, countClose_append,
        readLoop_countClose, hasFatal_cons, hasFatal_nil, hasFatal_append,
        readLoop_hasFatal, isRaise]
    | none =>
      simp [deployTrace, hab, countClose_cons, countClose_append,
        readLoop_countClose, hasFatal_cons, hasFatal_append,
        readLoop_hasFatal, isRaise, gate_countClose]

theorem execTrace_nil : execTrace [] = [] := rfl

theorem execTrace_cons (e : Event) (t : List Event) :
    execTrace (e :: t) =
      (match e with | Event.exec c => [c] | _ => []) ++ execTrace t := by
  cases e <;> simp [execTrace, List.filterMap_cons]

theorem execTrace_append (a b : List Event) :
    execTrace (a ++ b) = execTrace a ++ execTrace b := by
  simp [execTrace, List.filterMap_append]

theorem readLoop_execTrace (o : Option Fatal) :
    ∀ cs, execTrace (readLoopEvents o cs) = [] := by
  intro cs
  induction cs with
  | nil => cases o <;> simp [readLoopEvents, execTrace_cons, execTrace_nil]
  | cons x xs ih =>
    by_cases hl : x.length = 0 <;>
      simp [readLoopEvents, hl, execTrace_cons, execTrace_nil, ih]

/-- Claim C4: in every run in which no fatal error is raised, the
status-query command (`pm2 status`) is issued exactly once, and the
overall sequence of issued commands is [build, restart, status] when the
build exits 0 and [build, status] otherwise. -/
theorem status_query_once (env : Env)
    (h : hasFatal (deployTrace env) = false) :
    countExec (deployTrace env) statusCmdStr = 1 ∧
    execTrace (deployTrace env) =
      if env.build.exitStatus = 0 then [buildCmdStr, restartCmdStr, statusCmdStr]
      else [buildCmdStr, statusCmdStr] := by
  obtain ⟨cn, ⟨bc, bo, bst⟩, ⟨rc, ro, rs⟩, ⟨sc, so, ss⟩⟩ := env
  cases cn with
  | some e => simp [deployTrace, hasFatal_cons, isRaise] at h
  | none =>
    cases hab : readLoopAborts bo bc with
    | some e =>
      simp [deployTrace, hab, hasFatal_cons, hasFatal_append,
        readLoop_hasFatal, isRaise] at h
    | none =>
      have h' : hasFatal (gateEvents ⟨none, ⟨bc, bo, bst⟩, ⟨rc, ro, rs⟩, ⟨sc, so, ss⟩⟩)
          = false := by
        simpa [deployTrace, hab, hasFatal_cons, hasFatal_append,
          readLoop_hasFatal, isRaise] using h
      by_cases hb0 : bst = 0
      · cases ro with
        | some e => simp [gateEvents, hb0, hasFatal_cons, isRaise] at h'
        | none =>
          cases so with
          | some e =>
            simp [gateEvents, hb0, step3Events, hasFatal_cons, hasFatal_nil,
              isRaise] at h'
          | none =>
            simp [deployTrace, hab, gateEvents, hb0, step3Events,
              countExec_cons, countExec_append, countExec_nil, readLoop_countExec,
              execTrace_cons, execTrace_append, execTrace_nil, readLoop_execTrace,
              build_ne_status, restart_ne_status]
      · cases so with
        | some e =>
          simp [gateEvents, hb0, step3Events, hasFatal_cons, hasFatal_nil,
            isRaise] at h'
        | none =>
          simp [deployTrace, hab, gateEvents, hb0, step3Events,
            countExec_cons, countExec_append, countExec_nil, readLoop_countExec,
            execTrace_cons, execTrace_append, execTrace_nil, readLoop_execTrace,
            build_ne_status, restart_ne_status]

/-- Witness for claim C4 at a concrete fatal-error-free environment. -/
theorem status_query_once_witness :
    hasFatal (deployTrace envC4w) = false ∧
      (countExec (deployTrace envC4w) statusCmdStr = 1 ∧
        execTrace (deployTrace envC4w) =
          if envC4w.build.exitStatus = 0 then [buildCmdStr, restartCmdStr, statusCmdStr]
          else [buildCmdStr, statusCmdStr]) :=
  ⟨by decide, status_query_once envC4w (by decide)⟩

theorem chunkFlat_not_recv (cs : List (List Nat)) :
    ∀ e ∈ (cs.map chunkEvents).flatten, (!(isRecv e)) = true := by
  intro e he
  have h := mem_chunkFlat cs e he
  cases e <;> simp_all [isStreamEv, isRecv]

theorem filter_stream_chunkEvents (c : List Nat) :
    List.filter isStreamEv (chunkEvents c) = chunkEvents c := by
  simp [chunkEvents, isStreamEv]

theorem chunkFlat_filter_stream (cs : List (List Nat)) :
    List.filter isStreamEv ((cs.map chunkEvents).flatten) = (cs.map chunkEvents).flatten :=
  List.filter_eq_self.2 (fun a ha => mem_chunkFlat cs a ha)

theorem untilRecv_cons (e : Event) (t : List Event) :
    untilRecv (e :: t) = if isRecv e then [] else e :: untilRecv t := by
  by_cases h : isRecv e <;> simp [untilRecv, List.takeWhile_cons, h]

theorem untilRecv_chunkFlat (cs : List (List Nat)) (t : List Event) :
    untilRecv ((cs.map chunkEvents).flatten ++ t) =
      (cs.map chunkEvents).flatten ++ untilRecv t :=
  takeWhile_append_of_all _ _ (chunkFlat_not_recv cs)

/-- Claim C5 (amended): for the build command — the only command whose
output stream the script reads incrementally (lines 18-23) — the stream is
read in chunks and each decoded chunk is written and flushed to the output
sink before the next chunk is read: the stream-I/O events before the first
`recv_exit_status` are exactly read-write-flush triples, one per chunk,
ending with the empty read that closes the stream; and when a later read
raises a fatal error, the writes of all previously delivered chunks are
already in the trace, which ends at the raised error.  The restart and
status commands' streams are instead read with a single whole-stream
`read()` (lines 31, 38) and printed only after the stream closes (see the
claim's counterexample). -/
theorem incremental_chunk_stream (env : Env)
    (hc : env.connect = none) (hw : wfChunks env.build.chunks = true) :
    (env.build.outcome = none →
      streamEvents (untilRecv (deployTrace env)) =
        (env.build.chunks.map chunkEvents).flatten ++ [Event.readChunk []]) ∧
    (∀ e, env.build.outcome = some e →
      streamEvents (deployTrace env) = (env.build.chunks.map chunkEvents).flatten ∧
      (deployTrace env).getLast? = some (Event.raiseErr e)) := by
  obtain ⟨cn, ⟨bc, bo, bst⟩, rb, sb⟩ := env
  simp only at hc hw ⊢
  subst hc
  constructor
  · intro hb
    subst hb
    simp only [deployTrace, readLoopEvents_eq none bc hw, readLoopAborts_wf none bc hw,
      loopTail, List.append_assoc, List.cons_append, List.nil_append]
    rw [untilRecv_cons, untilRecv_cons, untilRecv_cons, untilRecv_cons]
    simp only [isRecv, if_neg, Bool.false_eq_true, not_false_eq_true, if_false]
    rw [untilRecv_chunkFlat]
    rw [untilRecv_cons]
    simp only [isRecv, Bool.false_eq_true, not_false_eq_true, if_false]
    rw [untilRecv_cons]
    simp only [isRecv, if_pos]
    simp [streamEvents, List.filter_append, List.filter_cons, isStreamEv,
      chunkFlat_filter_stream, Function.comp_def, filter_stream_chunkEvents]
  · intro e hb
    subst hb
    have htr : deployTrace ⟨none, ⟨bc, some e, bst⟩, rb, sb⟩ =
        (Event.print "Connecting to VPS..." :: Event.print "Connected.\n" ::
          Event.print "=== STEP 1: npm run build ===" :: Event.exec buildCmdStr ::
          (bc.map chunkEvents).flatten) ++ [Event.raiseErr e] := by
      simp [deployTrace, readLoopEvents_eq (some e) bc hw,
        readLoopAborts_wf (some e) bc hw, loopTail]
    rw [htr]
    constructor
    · rw [streamEvents, List.filter_append]
      simp [List.filter_cons, isStreamEv, chunkFlat_filter_stream,
        Function.comp_def, filter_stream_chunkEvents]
    · exact List.getLast?_concat _

/-- Witness for claim C5 at a concrete environment where the build stream
delivers two chunks and then times out. -/
theorem incremental_chunk_stream_witness :
    envC5w.connect = none ∧ wfChunks envC5w.build.chunks = true ∧
      ((envC5w.build.outcome = none →
        streamEvents (untilRecv (deployTrace envC5w)) =
          (envC5w.build.chunks.map chunkEvents).flatten ++ [Event.readChunk []]) ∧
      (∀ e, envC5w.build.outcome = some e →
        streamEvents (deployTrace envC5w) =
          (envC5w.build.chunks.map chunkEvents).flatten ∧
        (deployTrace envC5w).getLast? = some (Event.raiseErr e))) :=
  ⟨rfl, by decide, incremental_chunk_stream envC5w rfl (by decide)⟩

theorem chunkFlat_hasFatal (cs : List (List Nat)) :
    hasFatal ((cs.map chunkEvents).flatten) = false := by
  rw [hasFatal, List.any_eq_false]
  intro e he
  have h := mem_chunkFlat cs e he
  cases e <;> simp_all [isStreamEv, isRaise]

/-- Claim C6: whenever the script reaches its end (no fatal error on any
step it runs), the process exits with code 0 for every combination of
remote command exit statuses; a nonzero build exit status is reported via
the `[BUILD EXIT CODE: N]` line and execution still reaches the
unconditional status-query step and the final `Done.` print. -/
theorem script_end_exit_zero (env : Env)
    (hc : env.connect = none) (hb : env.build.outcome = none)
    (hw : wfChunks env.build.chunks = true)
    (hr : env.build.exitStatus = 0 → env.restart.outcome = none)
    (hs : env.statusQ.outcome = none) :
    procExit env = 0 ∧
    Event.print ("\n[BUILD EXIT CODE: " ++ toString env.build.exitStatus ++ "]")
      ∈ deployTrace env ∧
    Event.exec statusCmdStr ∈ deployTrace env ∧
    Event.print "Done." ∈ deployTrace env := by
  obtain ⟨cn, ⟨bc, bo, bst⟩, ⟨rc, ro, rs⟩, ⟨sc, so, ss⟩⟩ := env
  simp only at hc hb hw hr hs ⊢
  subst hc; subst hb; subst hs
  by_cases hb0 : bst = 0
  · have hro : ro = none := hr hb0
    subst hro
    simp [procExit, deployTrace, readLoopEvents_eq none bc hw,
      readLoopAborts_wf none bc hw, loopTail, gateEvents, step3Events, hb0,
      hasFatal_cons, hasFatal_append, hasFatal_nil, chunkFlat_hasFatal, isRaise,
      List.mem_append]
  · simp [procExit, deployTrace, readLoopEvents_eq none bc hw,
      readLoopAborts_wf none bc hw, loopTail, gateEvents, step3Events, hb0,
      hasFatal_cons, hasFatal_append, hasFatal_nil, chunkFlat_hasFatal, isRaise,
      List.mem_append]

/-- Witness for claim C6 at a concrete environment with build exit
status 7. -/
theorem script_end_exit_zero_witness :
    envC6w.connect = none ∧ envC6w.build.outcome = none ∧
      wfChunks envC6w.build.chunks = true ∧
      (envC6w.build.exitStatus = 0 → envC6w.restart.outcome = none) ∧
      envC6w.statusQ.outcome = none ∧
      (procExit envC6w = 0 ∧
        Event.print ("\n[BUILD EXIT CODE: " ++ toString envC6w.build.exitStatus ++ "]")
          ∈ deployTrace envC6w ∧
        Event.exec statusCmdStr ∈ deployTrace envC6w ∧
        Event.print "Done." ∈ deployTrace envC6w) :=
  ⟨rfl, rfl, by decide, by decide, rfl,
    script_end_exit_zero envC6w rfl rfl (by decide) (by decide) rfl⟩

/-- Claim C7: for every exit status value in 0-255 reported by the
simulated remote channel after a command's output stream closes, the exit
status captured by the script and echoed in the `[BUILD EXIT CODE: N]`
(resp. `[PM2 EXIT: N]`) line is that same reported value. -/
theorem exit_status_roundtrip (env : Env)
    (hc : env.connect = none) (hb : env.build.outcome = none)
    (hw : wfChunks env.build.chunks = true)
    (h255 : env.build.exitStatus ≤ 255) :
    (Event.recvExit env.build.exitStatus ∈ deployTrace env ∧
      Event.print ("\n[BUILD EXIT CODE: " ++ toString env.build.exitStatus ++ "]")
        ∈ deployTrace env) ∧
    (env.build.exitStatus = 0 → env.restart.outcome = none →
      env.restart.exitStatus ≤ 255 →
      Event.recvExit env.restart.exitStatus ∈ deployTrace env ∧
      Event.print ("[PM2 EXIT: " ++ toString env.restart.exitStatus ++ "]")
        ∈ deployTrace env) := by
  obtain ⟨cn, ⟨bc, bo, bst⟩, ⟨rc, ro, rs⟩, ⟨sc, so, ss⟩⟩ := env
  simp only at hc hb hw h255 ⊢
  subst hc; subst hb
  constructor
  · simp [deployTrace, readLoopEvents_eq none bc hw, readLoopAborts_wf none bc hw,
      loopTail, List.mem_append]
  · intro hb0 hro _
    subst hro
    simp [deployTrace, readLoopEvents_eq none bc hw, readLoopAborts_wf none bc hw,
      loopTail, gateEvents, step3Events, hb0, List.mem_append]

/-- Witness for claim C7 at a concrete environment whose restart command
reports exit status 255. -/
theorem exit_status_roundtrip_witness :
    envC7w.connect = none ∧ envC7w.build.outcome = none ∧
      wfChunks envC7w.build.chunks = true ∧ envC7w.build.exitStatus ≤ 255 ∧
      ((Event.recvExit envC7w.build.exitStatus ∈ deployTrace envC7w ∧
        Event.print ("\n[BUILD EXIT CODE: " ++ toString envC7w.build.exitStatus ++ "]")
          ∈ deployTrace envC7w) ∧
      (envC7w.build.exitStatus = 0 → envC7w.restart.outcome = none →
        envC7w.restart.exitStatus ≤ 255 →
        Event.recvExit envC7w.restart.exitStatus ∈ deployTrace envC7w ∧
        Event.print ("[PM2 EXIT: " ++ toString envC7w.restart.exitStatus ++ "]")
          ∈ deployTrace envC7w)) :=
  ⟨rfl, rfl, by decide, by decide,
    exit_status_roundtrip envC7w rfl rfl (by decide) (by decide)⟩

theorem drainEvents_nil : drainEvents [] = [] := rfl

theorem drainEvents_cons (e : Event) (t : List Event) :
    drainEvents (e :: t) =
      if (isRead e || isRecv e) then e :: drainEvents t else drainEvents t := by
  by_cases h : (isRead e || isRecv e) = true <;>
    simp [drainEvents, List.filter_cons, h]

theorem drainEvents_append (a b : List Event) :
    drainEvents (a ++ b) = drainEvents a ++ drainEvents b := by
  simp [drainEvents, List.filter_append]

/-- Claim C8: the script never retrieves a command's exit status before
that command's output stream has been fully drained.  The subsequence of
stream reads and `recv_exit_status` calls of any run (with a working
connection and a well-formed build channel) is: all build chunk reads,
then the empty read that closes the build stream, then the build
`recv_exit_status`; then, if the restart step runs, its whole-stream read
before its `recv_exit_status`; then the status step's whole-stream read
(whose exit status is never retrieved). -/
theorem drain_before_exit_status (env : Env)
    (hc : env.connect = none) (hw : wfChunks env.build.chunks = true) :
    drainEvents (deployTrace env) =
      env.build.chunks.map Event.readChunk ++
      (match env.build.outcome with
       | some _ => []
       | none =>
         Event.readChunk [] :: Event.recvExit env.build.exitStatus ::
         (if env.build.exitStatus = 0 then
            (match env.restart.outcome with
             | some _ => []
             | none =>
               Event.readChunk env.restart.chunks.flatten ::
               Event.recvExit env.restart.exitStatus ::
               (match env.statusQ.outcome with
                | some _ => []
                | none => [Event.readChunk env.statusQ.chunks.flatten]))
          else
            (match env.statusQ.outcome with
             | some _ => []
             | none => [Event.readChunk env.statusQ.chunks.flatten]))) := by
  obtain ⟨cn, ⟨bc, bo, bst⟩, ⟨rc, ro, rs⟩, ⟨sc, so, ss⟩⟩ := env
  simp only at hc hw ⊢
  subst hc
  cases bo with
  | some e =>
    simp [deployTrace, readLoopEvents_eq (some e) bc hw,
      readLoopAborts_wf (some e) bc hw, loopTail, drainEvents_cons,
      drainEvents_append, drainEvents_nil, chunkFlat_drain, isRead, isRecv]
  | none =>
    by_cases hb0 : bst = 0
    · cases ro with
      | some e =>
        simp [deployTrace, readLoopEvents_eq none bc hw, readLoopAborts_wf none bc hw,
          loopTail, gateEvents, hb0, drainEvents_cons, drainEvents_append,
          drainEvents_nil, chunkFlat_drain, isRead, isRecv]
      | none =>
        cases so with
        | some e =>
          simp [deployTrace, readLoopEvents_eq none bc hw, readLoopAborts_wf none bc hw,
            loopTail, gateEvents, step3Events, hb0, drainEvents_cons, drainEvents_append,
            drainEvents_nil, chunkFlat_drain, isRead, isRecv]
        | none =>
          simp [deployTrace, readLoopEvents_eq none bc hw, readLoopAborts_wf none bc hw,
            loopTail, gateEvents, step3Events, hb0, drainEvents_cons, drainEvents_append,
            drainEvents_nil, chunkFlat_drain, isRead, isRecv]
    · cases so with
      | some e =>
        simp [deployTrace, readLoopEvents_eq none bc hw, readLoopAborts_wf none bc hw,
          loopTail, gateEvents, step3Events, hb0, drainEvents_cons, drainEvents_append,
          drainEvents_nil, chunkFlat_drain, isRead, isRecv]
      | none =>
        simp [deployTrace, readLoopEvents_eq none bc hw, readLoopAborts_wf none bc hw,
          loopTail, gateEvents, step3Events, hb0, drainEvents_cons, drainEvents_append,
          drainEvents_nil, chunkFlat_drain, isRead, isRecv]

/-- Witness for claim C8 at a concrete fully successful environment. -/
theorem drain_before_exit_status_witness :
    envC8w.connect = none ∧ wfChunks envC8w.build.chunks = true ∧
      drainEvents (deployTrace envC8w) =
        envC8w.build.chunks.map Event.readChunk ++
        (match envC8w.build.outcome with
         | some _ => []
         | none =>
           Event.readChunk [] :: Event.recvExit envC8w.build.exitStatus ::
           (if envC8w.build.exitStatus = 0 then
              (match envC8w.restart.outcome with
               | some _ => []
               | none =>
                 Event.readChunk envC8w.restart.chunks.flatten ::
                 Event.recvExit envC8w.restart.exitStatus ::
                 (match envC8w.statusQ.outcome with
                  | some _ => []
                  | none => [Event.readChunk envC8w.statusQ.chunks.flatten]))
            else
              (match envC8w.statusQ.outcome with
               | some _ => []
               | none => [Event.readChunk envC8w.statusQ.chunks.flatten]))) :=
  ⟨rfl, by decide, drain_before_exit_status envC8w rfl (by decide)⟩

theorem readLoop_split (o : Option Fatal) (e : Fatal) :
    ∀ cs, readLoopAborts o cs = some e →
      ∃ t, readLoopEvents o cs = t ++ [Event.raiseErr e] ∧ hasFatal t = false := by
  intro cs
  induction cs with
  | nil =>
    intro h
    have ho : o = some e := h
    subst ho
    exact ⟨[], rfl, rfl⟩
  | cons c cs ih =>
    intro h
    by_cases hl : c.length = 0
    · simp [readLoopAborts, hl] at h
    · obtain ⟨t, ht, hf⟩ := ih (by simpa [readLoopAborts, hl] using h)
      refine ⟨Event.readChunk c :: Event.write (utf8DecodeRep c) :: Event.flush :: t, ?_, ?_⟩
      · simp [readLoopEvents, hl, ht]
      · simp [hasFatal_cons, isRaise, hf]

theorem step3_split (env : Env) (hg : hasFatal (step3Events env) = true) :
    ∃ t e, step3Events env = t ++ [Event.raiseErr e] ∧ hasFatal t = false := by
  obtain ⟨cn, bb, rb, ⟨sc, so, ss⟩⟩ := env
  cases so with
  | some e =>
    refine ⟨[Event.print ("\n=== STEP 3: pm2 status ==="), Event.exec statusCmdStr],
      e, ?_, ?_⟩
    · simp [step3Events]
    · simp [hasFatal_cons, hasFatal_nil, isRaise]
  | none =>
    simp [step3Events, hasFatal_cons, hasFatal_nil, isRaise] at hg

theorem gate_split (env : Env) (hg : hasFatal (gateEvents env) = true) :
    ∃ t e, gateEvents env = t ++ [Event.raiseErr e] ∧ hasFatal t = false := by
  obtain ⟨cn, ⟨bc, bo, bst⟩, ⟨rc, ro, rs⟩, ⟨sc, so, ss⟩⟩ := env
  by_cases hb0 : bst = 0
  · subst hb0
    cases ro with
    | some e =>
      refine ⟨[Event.print ("\n=== STEP 2: pm2 restart gst ==="), Event.exec restartCmdStr],
        e, ?_, ?_⟩
      · simp [gateEvents]
      · simp [hasFatal_cons, hasFatal_nil, isRaise]
    | none =>
      have hg3 : hasFatal (step3Events ⟨cn, ⟨bc, bo, 0⟩, ⟨rc, none, rs⟩, ⟨sc, so, ss⟩⟩)
          = true := by
        simpa [gateEvents, hasFatal_cons, hasFatal_append, isRaise] using hg
      obtain ⟨t, e, ht, hf⟩ := step3_split _ hg3
      refine ⟨Event.print ("\n=== STEP 2: pm2 restart gst ===") :: Event.exec restartCmdStr ::
        Event.readChunk rc.flatten :: Event.printText (utf8DecodeRep rc.flatten) ::
        Event.recvExit rs :: Event.print ("[PM2 EXIT: " ++ toString rs ++ "]") :: t, e, ?_, ?_⟩
      · simp [gateEvents, ht]
      · simp [hasFatal_cons, isRaise, hf]
  · have hg3 : hasFatal (step3Events ⟨cn, ⟨bc, bo, bst⟩, ⟨rc, ro, rs⟩, ⟨sc, so, ss⟩⟩)
        = true := by
      simpa [gateEvents, hb0, hasFatal_cons, isRaise] using hg
    obtain ⟨t, e, ht, hf⟩ := step3_split _ hg3
    refine ⟨Event.print ("[BUILD FAILED — skipping restart]") :: t, e, ?_, ?_⟩
    · simp [gateEvents, hb0, ht]
    · simp [hasFatal_cons, isRaise, hf]

theorem step3_countExec_status (env : Env) :
    countExec (step3Events env) statusCmdStr = 1 := by
  obtain ⟨cn, bb, rb, ⟨sc, so, ss⟩⟩ := env
  cases so <;> simp [step3Events, countExec_cons, countExec_nil]

theorem gate_countExec_build (env : Env) :
    countExec (gateEvents env) buildCmdStr = 0 := by
  obtain ⟨cn, ⟨bc, bo, bst⟩, ⟨rc, ro, rs⟩, ⟨sc, so, ss⟩⟩ := env
  by_cases hb0 : bst = 0
  · cases ro <;> cases so <;>
      simp [gateEvents, step3Events, hb0, countExec_cons, countExec_nil,
        Ne.symm build_ne_restart, Ne.symm build_ne_status]
  · cases so <;>
      simp [gateEvents, step3Events, hb0, countExec_cons, countExec_nil,
        Ne.symm build_ne_status]

theorem gate_countExec_status_le (env : Env) :
    countExec (gateEvents env) statusCmdStr ≤ 1 := by
  obtain ⟨cn, ⟨bc, bo, bst⟩, ⟨rc, ro, rs⟩, ⟨sc, so, ss⟩⟩ := env
  by_cases hb0 : bst = 0
  · cases ro <;> cases so <;>
      simp [gateEvents, step3Events, hb0, countExec_cons, countExec_nil,
        restart_ne_status, Ne.symm restart_ne_status]
  · cases so <;>
      simp [gateEvents, step3Events, hb0, countExec_cons, countExec_nil]

theorem gate_countExec_restart_le (env : Env) :
    countExec (gateEvents env) restartCmdStr ≤ 1 := by
  rw [gate_countExec_restart]
  split <;> simp

theorem trace_counts (env : Env) :
    countExec (deployTrace env) buildCmdStr ≤ 1 ∧
    countExec (deployTrace env) restartCmdStr ≤ 1 ∧
    countExec (deployTrace env) statusCmdStr ≤ 1 := by
  obtain ⟨cn, ⟨bc, bo, bst⟩, rb, sb⟩ := env
  cases cn with
  | some e => simp [deployTrace, countExec_cons, countExec_nil]
  | none =>
    cases hab : readLoopAborts bo bc with
    | some e =>
      simp [deployTrace, hab, countExec_cons, countExec_append, countExec_nil,
        readLoop_countExec, build_ne_restart, build_ne_status]
    | none =>
      refine ⟨?_, ?_, ?_⟩ <;>
        simp [deployTrace, hab, countExec_cons, countExec_append, countExec_nil,
          readLoop_countExec, build_ne_restart, build_ne_status,
          gate_countExec_build, gate_countExec_restart_le, gate_countExec_status_le,
          Ne.symm build_ne_restart, Ne.symm build_ne_status]

/-- Claim C9: every fatal error raised by `connect()` or a `run()` is
unhandled and terminates the program: the trace ends at the single raised
error (so no subsequent pipeline step runs and everything already
streamed remains in the trace), and no command is ever issued more than
once (no retry). -/
theorem fatal_error_terminates (env : Env)
    (h : hasFatal (deployTrace env) = true) :
    (∃ t e, deployTrace env = t ++ [Event.raiseErr e] ∧ hasFatal t = false) ∧
    countExec (deployTrace env) buildCmdStr ≤ 1 ∧
    countExec (deployTrace env) restartCmdStr ≤ 1 ∧
    countExec (deployTrace env) statusCmdStr ≤ 1 := by
  refine ⟨?_, trace_counts env⟩
  obtain ⟨cn, ⟨bc, bo, bst⟩, rb, sb⟩ := env
  cases cn with
  | some e => exact ⟨[Event.print ("Connecting to VPS...")], e, rfl, rfl⟩
  | none =>
    cases hab : readLoopAborts bo bc with
    | some e =>
      obtain ⟨t, ht, hf⟩ := readLoop_split bo e bc hab
      refine ⟨Event.print ("Connecting to VPS...") :: Event.print ("Connected.\n") ::
        Event.print ("=== STEP 1: npm run build ===") :: Event.exec buildCmdStr :: t,
        e, ?_, ?_⟩
      · simp [deployTrace, hab, ht]
      · simp [hasFatal_cons, isRaise, hf]
    | none =>
      have hg : hasFatal (gateEvents ⟨none, ⟨bc, bo, bst⟩, rb, sb⟩) = true := by
        simpa [deployTrace, hab, hasFatal_cons, hasFatal_append,
          readLoop_hasFatal, isRaise] using h
      obtain ⟨t, e, ht, hf⟩ := gate_split _ hg
      refine ⟨Event.print ("Connecting to VPS...") :: Event.print ("Connected.\n") ::
        Event.print ("=== STEP 1: npm run build ===") :: Event.exec buildCmdStr ::
        (readLoopEvents bo bc ++ Event.recvExit bst ::
          Event.print ("\n[BUILD EXIT CODE: " ++ toString bst ++ "]") :: t), e, ?_, ?_⟩
      · simp [deployTrace, hab, ht, List.cons_append, List.append_assoc]
      · simp [hasFatal_cons, hasFatal_append, readLoop_hasFatal, hab, isRaise, hf]

/-- Witness for claim C9 at a concrete environment where the build step
times out. -/
theorem fatal_error_terminates_witness :
    hasFatal (deployTrace envC9w) = true ∧
      ((∃ t e, deployTrace envC9w = t ++ [Event.raiseErr e] ∧ hasFatal t = false) ∧
        countExec (deployTrace envC9w) buildCmdStr ≤ 1 ∧
        countExec (deployTrace envC9w) restartCmdStr ≤ 1 ∧
        countExec (deployTrace envC9w) statusCmdStr ≤ 1) :=
  ⟨by decide, fatal_error_terminates envC9w (by decide)⟩

theorem mem_readLoop (o : Option Fatal) :
    ∀ cs e, e ∈ readLoopEvents o cs → isStreamEv e = true ∨ isRaise e = true := by
  intro cs
  induction cs with
  | nil =>
    intro e he
    cases o <;> simp [readLoopEvents] at he <;> subst he <;> simp [isStreamEv, isRaise]
  | cons c cs ih =>
    intro e he
    by_cases hl : c.length = 0
    · simp [readLoopEvents, hl] at he
      subst he
      left; rfl
    · simp only [readLoopEvents, if_neg hl, List.mem_cons] at he
      rcases he with rfl | rfl | rfl | hmem
      · left; rfl
      · left; rfl
      · left; rfl
      · exact ih e hmem

theorem dropWhileClose_readLoop (o : Option Fatal) (cs : List (List Nat)) (t : List Event) :
    List.dropWhile (fun e => !(e = Event.close)) (readLoopEvents o cs ++ t) =
      List.dropWhile (fun e => !(e = Event.close)) t := by
  refine dropWhile_append_of_all _ _ ?_
  intro e he
  rcases mem_readLoop o cs e he with h | h <;> cases e <;> simp_all [isStreamEv, isRaise]

theorem dropWhileClose_readLoop_nil (o : Option Fatal) (cs : List (List Nat)) :
    List.dropWhile (fun e => !(e = Event.close)) (readLoopEvents o cs) = [] := by
  simpa using dropWhileClose_readLoop o cs []

/-- Claim C10: in every execution, no remote command is ever sent after
the transport is closed: every event after the (single, final-phase)
`client.close()` call is a non-`exec_command` event — in fact only the
final `Done.` print follows it, so there is no use-after-close on the
connection. -/
theorem no_exec_after_close (env : Env) :
    (afterClose (deployTrace env)).all (fun e => !(isExec e)) = true := by
  obtain ⟨cn, ⟨bc, bo, bst⟩, ⟨rc, ro, rs⟩, ⟨sc, so, ss⟩⟩ := env
  cases cn with
  | some e => simp [deployTrace, afterClose, List.dropWhile_cons, isExec]
  | none =>
    cases hab : readLoopAborts bo bc with
    | some e =>
      simp [deployTrace, hab, afterClose, List.dropWhile_cons,
        dropWhileClose_readLoop, dropWhileClose_readLoop_nil, isExec]
    | none =>
      by_cases hb0 : bst = 0
      · subst hb0
        cases ro <;> cases so <;>
          simp [deployTrace, hab, gateEvents, step3Events, afterClose,
            List.dropWhile_cons, dropWhileClose_readLoop, isExec]
      · cases so <;>
          simp [deployTrace, hab, gateEvents, step3Events, hb0, afterClose,
            List.dropWhile_cons, dropWhileClose_readLoop, isExec]

/-- Claim C5 counterexample: the incremental-streaming property does not
hold for every command executed by `run()`.  In an execution where the
restart command runs and its channel delivers two chunks, the script
performs one whole-stream read of their concatenation (line 31), never
reads the first chunk on its own, never writes any decoded chunk to the
output sink as it arrives (the run's incremental written text is empty),
and only prints the decoded output after the stream has closed. -/
theorem run_not_incremental_cx :
    Event.exec restartCmdStr ∈ deployTrace envC5cx ∧
    envC5cx.restart.chunks = [[0x6F], [0x70]] ∧
    Event.readChunk [0x6F, 0x70] ∈ deployTrace envC5cx ∧
    Event.readChunk [0x6F] ∉ deployTrace envC5cx ∧
    Event.write (utf8DecodeRep [0x6F]) ∉ deployTrace envC5cx ∧
    writtenText (deployTrace envC5cx) = [] ∧
    Event.printText (utf8DecodeRep [0x6F, 0x70]) ∈ deployTrace envC5cx := by
  decide
